import Mathlib

/-!
Verification development for the Golab quantum-blockchain repository.

This file shallowly embeds the ES-module blockchain core of the repository
(`src/blockchain/Transaction.js`, `src/blockchain/Block.js` — shipped here as
`src/unnamed/part_005` —, the `Blockchain` class of
`src/blockchain/BlockchainCore.js`, and the consensus computation of
`src/validators/ValidatorNetwork.js`) and proves properties of the embedding.

Modelling conventions:
* JavaScript numbers carrying integer data (amounts, balances, gas,
  timestamps, nonces) are modelled as `Int`/`Nat`; fractional fee arithmetic
  is modelled exactly over `ℚ`.
* JavaScript `null` is modelled with `Option`; template interpolation of
  `null` produces the string `"null"` as in JS.
* The 32-bit string hash used throughout the source
  (`hash = ((hash << 5) - hash) + char; hash = hash & hash`) is modelled
  exactly with wrap-around int32 arithmetic.
* Environmental inputs (`Date.now()`, `Math.random()` derived identifiers)
  are passed as explicit parameters.
* Methods that `throw` are modelled with `Except`; a thrown error leaves the
  caller's state unchanged, matching the source, where every mutation happens
  after the last possible throw site.
-/

namespace Golab

/-! ## JavaScript 32-bit string hash (`sha256`/`hash` helpers in the source) -/

/-- Wrap an integer into the signed 32-bit range, as JavaScript's `| 0` /
`& hash` coercion does. -/
def toInt32 (n : Int) : Int :=
  (n + 2 ^ 31) % 2 ^ 32 - 2 ^ 31

/-- One step of the source's string hash loop:
`hash = ((hash << 5) - hash) + char; hash = hash & hash`. -/
def jsHashStep (h : Int) (c : Char) : Int :=
  toInt32 (toInt32 (h * 32) - h + (c.toNat : Int))

/-- The source's string hash: fold `jsHashStep` over the characters. -/
def jsStrHash (s : String) : Int :=
  s.data.foldl jsHashStep 0

/-- Lowercase hexadecimal digit, as produced by JS `Number.toString(16)`. -/
def hexDigitChar (n : Nat) : Char :=
  if n < 10 then Char.ofNat (48 + n) else Char.ofNat (87 + n)

/-- Accumulator loop for hexadecimal rendering of a natural number; the first
argument is structural fuel (any fuel ≥ the digit count is exact, and
`natToHex` passes `n + 1`). -/
def natToHexCore : Nat → Nat → List Char → List Char
  | 0, _, acc => acc
  | fuel + 1, n, acc =>
      if n = 0 then acc
      else natToHexCore fuel (n / 16) (hexDigitChar (n % 16) :: acc)

/-- JS `Number.toString(16)` for a natural number. -/
def natToHex (n : Nat) : String :=
  if n = 0 then "0" else String.mk (natToHexCore (n + 1) n [])

/-- JS `String.padStart(8, '0')`. -/
def padStart8 (s : String) : String :=
  String.mk (List.replicate (8 - s.length) '0') ++ s

/-- `Block.sha256` from `Block.js`:
`Math.abs(hash).toString(16).padStart(8, '0')`. -/
def blockSha256 (s : String) : String :=
  padStart8 (natToHex (jsStrHash s).natAbs)

/-- `Transaction.hash` from `Transaction.js`:
`Math.abs(hash).toString(16)` (no padding). -/
def txHashHex (s : String) : String :=
  natToHex (jsStrHash s).natAbs

/-- JS template interpolation of a possibly-`null` string value. -/
def optTemplate : Option String → String
  | none => "null"
  | some s => s

/-! ## A small JSON value universe and `JSON.stringify` -/

/-- JSON values appearing as transaction payloads and opaque signatures. -/
inductive Json where
  | null : Json
  | str : String → Json
  | num : Int → Json
  | obj : List (String × Json) → Json
deriving Repr

mutual

/-- `JSON.stringify` on the `Json` universe (the payloads in this code base
contain no characters that JSON escaping would rewrite). -/
def Json.stringify : Json → String
  | .null => "null"
  | .str s => "\"" ++ s ++ "\""
  | .num n => toString n
  | .obj fs => "\x7b" ++ Json.stringifyFields fs ++ "\x7d"

/-- `JSON.stringify` of an object's field list, comma separated. -/
def Json.stringifyFields : List (String × Json) → String
  | [] => ""
  | [(k, v)] => "\"" ++ k ++ "\":" ++ Json.stringify v
  | (k, v) :: f :: fs =>
      "\"" ++ k ++ "\":" ++ Json.stringify v ++ "," ++ Json.stringifyFields (f :: fs)

end

/-- `JSON.stringify` of a possibly-`null` JSON value. -/
def stringifyOpt : Option Json → String
  | none => "null"
  | some j => j.stringify

/-- Modelled from the spec: the opaque external SigningService
(`sign(payloadBytes) -> signature`, `verify(payloadBytes, signature) -> bool`).
The class backing it, `QuantumCircuit.js`, is imported by
`Transaction.js`/`Block.js` but is not under `src/`, and the spec (§6, §9)
treats it as an opaque external collaborator, so the embedding is
parameterized by it. -/
structure SigningEnv where
  signMsg : String → Json
  verifySig : String → Json → Bool

/-- A trivial signing environment (signs with `null`, accepts everything),
used to instantiate closed statements. -/
def trivEnv : SigningEnv :=
  { signMsg := fun _ => Json.null, verifySig := fun _ _ => true }

/-! ## Transaction (`src/blockchain/Transaction.js`) -/

/-- The `Transaction` class: `from`/`to` are nullable addresses, `amount` is a
(numeric) transfer amount, `data` an optional JSON payload, `quantumSignature`
a nullable opaque signature. Constructor-derived fields (`id`, `timestamp`)
are environmental and stored as plain data. -/
structure Transaction where
  id : String
  from_ : Option String
  to_ : Option String
  amount : Int
  data : Json
  timestamp : Int
  quantumSignature : Option Json
  gasUsed : Int
  status : String
  validator : Option String
deriving Repr

/-- `new Transaction(from, to, amount, data = null)`: fresh transaction with
`quantumSignature = null`, `gasUsed = 0`, `status = 'pending'`. `id` and
`timestamp` come from the environment (`Date.now()`, `Math.random()`). -/
def Transaction.make (id : String) (from_ to_ : Option String) (amount : Int)
    (data : Json) (timestamp : Int) : Transaction :=
  { id := id, from_ := from_, to_ := to_, amount := amount, data := data,
    timestamp := timestamp, quantumSignature := none, gasUsed := 0,
    status := "pending", validator := none }

/-- `getTransactionData()`:
`` `${this.from}${this.to}${this.amount}${this.timestamp}${JSON.stringify(this.data)}` ``. -/
def Transaction.getTransactionData (tx : Transaction) : String :=
  optTemplate tx.from_ ++ optTemplate tx.to_ ++ toString tx.amount ++
    toString tx.timestamp ++ tx.data.stringify

/-- `getHash()`: the JS string hash of
`getTransactionData() + JSON.stringify(quantumSignature)`. -/
def Transaction.getHash (tx : Transaction) : String :=
  txHashHex (tx.getTransactionData ++ stringifyOpt tx.quantumSignature)

/-- `sign(privateKey)`: set the opaque signature over
`getTransactionData() + privateKey` and mark the transaction signed. -/
def Transaction.sign (env : SigningEnv) (tx : Transaction) (privateKey : String) :
    Transaction :=
  { tx with quantumSignature := some (env.signMsg (tx.getTransactionData ++ privateKey)),
            status := "signed" }

/-- `verify(publicKey)`: `false` when the signature is `null`, otherwise the
opaque verification of `getTransactionData() + publicKey` against it. -/
def Transaction.verify (env : SigningEnv) (tx : Transaction) (publicKey : String) :
    Bool :=
  match tx.quantumSignature with
  | none => false
  | some sig => env.verifySig (tx.getTransactionData ++ publicKey) sig

/-- `Transaction.fromJSON(json)`: the constructor is called on the stored
`from`/`to`/`amount`/`data` and every remaining field is then overwritten from
the JSON record, so the reconstruction restores every field verbatim. -/
def Transaction.fromJSON (j : Transaction) : Transaction :=
  { Transaction.make j.id j.from_ j.to_ j.amount j.data j.timestamp with
      id := j.id, timestamp := j.timestamp, quantumSignature := j.quantumSignature,
      gasUsed := j.gasUsed, status := j.status, validator := j.validator }

/-! ## Block (`src/blockchain/Block.js`, shipped as `src/unnamed/part_005`) -/

/-- The `Block` class. `hash` is `null` until mined (or assigned), `validator`
and `quantumProof` are nullable, `previousHash` can hold the JS `null` that an
empty-chain access would produce. `reward` mixes the fractional gas fee factor,
hence `ℚ`. -/
structure Block where
  index : Nat
  timestamp : Int
  transactions : List Transaction
  previousHash : Option String
  validator : Option String
  merkleRoot : String
  nonce : Nat
  difficulty : Nat
  hash : Option String
  quantumProof : Option Json
  gasUsed : Int
  reward : ℚ
deriving Repr

/-- One level of `calculateMerkleRoot`'s while loop: combine adjacent pairs
with `sha256(left + right)` where `right = hashes[i + 1] || left` — the JS
`||` falls back to `left` both when the right neighbour is missing (odd count)
and when it is the empty string (falsy). -/
def merkleLevel : List String → List String
  | [] => []
  | [a] => [blockSha256 (a ++ a)]
  | a :: b :: rest =>
      blockSha256 (a ++ (if b = "" then a else b)) :: merkleLevel rest

/-- Each merkle level halves the node count, rounding up. -/
theorem merkleLevel_length : ∀ l : List String,
    (merkleLevel l).length = (l.length + 1) / 2
  | [] => by simp [merkleLevel]
  | [_] => by simp [merkleLevel]
  | _ :: _ :: rest => by
      simp [merkleLevel, merkleLevel_length rest]; omega

/-- The while loop of `calculateMerkleRoot`: fold levels until one hash
remains. The `[]` case is unreachable from `calculateMerkleRoot` (the empty
list is filtered out before the loop). -/
def merkleLoop : List String → String
  | [] => "0"
  | [h] => h
  | a :: b :: rest => merkleLoop (merkleLevel (a :: b :: rest))
termination_by l => l.length
decreasing_by simp [merkleLevel_length]; omega

/-- `calculateMerkleRoot()`: `'0'` for an empty transaction list, otherwise
the level fold over the leaves `tx.getHash()` in transaction order. -/
def Block.calculateMerkleRoot (txs : List Transaction) : String :=
  match txs with
  | [] => "0"
  | _ :: _ => merkleLoop (txs.map Transaction.getHash)

/-- `calculateTotalGas()`: sum of `tx.gasUsed` over the block's transactions. -/
def Block.calculateTotalGas (txs : List Transaction) : Int :=
  txs.foldl (fun total tx => total + tx.gasUsed) 0

/-- `calculateBlockReward()`:
`50 + gasUsed * 0.00001 + (validator ? 10 : 0)`. -/
def Block.calculateBlockReward (gasUsed : Int) (validator : Option String) : ℚ :=
  50 + (gasUsed : ℚ) * (1 / 100000) + (if validator.isSome then 10 else 0)

/-- `new Block(index, transactions, previousHash, validator = null)`: eagerly
computes `merkleRoot`, `gasUsed` and `reward`; `nonce = 0`, `difficulty = 4`,
`hash = null`, `quantumProof = null`. `timestamp` is `Date.now()`, passed in. -/
def Block.make (index : Nat) (timestamp : Int) (transactions : List Transaction)
    (previousHash : Option String) (validator : Option String) : Block :=
  { index := index, timestamp := timestamp, transactions := transactions,
    previousHash := previousHash, validator := validator,
    merkleRoot := Block.calculateMerkleRoot transactions,
    nonce := 0, difficulty := 4, hash := none, quantumProof := none,
    gasUsed := Block.calculateTotalGas transactions,
    reward := Block.calculateBlockReward (Block.calculateTotalGas transactions) validator }

/-- `calculateHash()`: the padded hash of
`` `${index}${timestamp}${previousHash}${merkleRoot}${nonce}${validator}` ``. -/
def Block.calculateHash (b : Block) : String :=
  blockSha256 (toString b.index ++ toString b.timestamp ++
    optTemplate b.previousHash ++ b.merkleRoot ++ toString b.nonce ++
    optTemplate b.validator)

/-- `Array(difficulty + 1).join('0')`: a string of `difficulty` zeros. -/
def mineTarget (difficulty : Nat) : String :=
  String.mk (List.replicate difficulty '0')

/-- The negation of `mine()`'s while condition: the hash is present and its
first `difficulty` characters hit the target. -/
def Block.powOk (b : Block) : Bool :=
  match b.hash with
  | none => false
  | some h => (h.take b.difficulty) = mineTarget b.difficulty

/-- One iteration of `mine()`'s loop: bump the nonce, recompute the hash, and
refresh the opaque quantum proof every 1000 nonces. -/
def Block.mineStep (env : SigningEnv) (b : Block) : Block :=
  let nonce' := b.nonce + 1
  let h := Block.calculateHash { b with nonce := nonce' }
  let b' := { b with nonce := nonce', hash := some h }
  if nonce' % 1000 = 0 then
    { b' with quantumProof := some (env.signMsg (h ++ toString nonce')) }
  else b'

/-- `mine()` as a fuel-bounded search: the JS loop runs until the proof of
work is met, which the fuel bound makes total; `none` stands for a search that
has not terminated within the bound. -/
def Block.mineLoop (env : SigningEnv) (b : Block) : Nat → Option Block
  | 0 => none
  | fuel + 1 =>
      if b.powOk then some b
      else Block.mineLoop env (Block.mineStep env b) fuel

/-- The `{valid, error}` record returned by `validate()`. -/
structure BlockCheck where
  valid : Bool
  error : Option String
deriving Repr

/-- `validate()`: hash recomputation, proof of work, merkle recomputation,
quantum proof (when present), then every transaction must `verify` against
the placeholder public key — the first failure wins. On the two branches
entered only with a non-null hash the source reads `this.hash`; the first
check has already forced `hash = some (calculateHash b)` there, so the
recomputed hash is used verbatim. -/
def Block.validate (env : SigningEnv) (b : Block) : BlockCheck :=
  if b.hash ≠ some (Block.calculateHash b) then
    ⟨false, some "Invalid hash"⟩
  else if (Block.calculateHash b).take b.difficulty ≠ mineTarget b.difficulty then
    ⟨false, some "Invalid proof of work"⟩
  else if b.merkleRoot ≠ Block.calculateMerkleRoot b.transactions then
    ⟨false, some "Invalid merkle root"⟩
  else if (match b.quantumProof with
           | some qp => ! env.verifySig (Block.calculateHash b ++ toString b.nonce) qp
           | none => false) then
    ⟨false, some "Invalid quantum proof"⟩
  else
    match b.transactions.find? (fun tx => ! Transaction.verify env tx "placeholder_public_key") with
    | some tx => ⟨false, some ("Invalid transaction: " ++ tx.id)⟩
    | none => ⟨true, none⟩

/-- `addTransaction(tx)`: throws `'Block is full'` at the 1000-transaction
cap, otherwise appends the transaction and refreshes `merkleRoot`, `gasUsed`
and `reward`. There is no check that the block is still unmined. -/
def Block.addTransaction (b : Block) (tx : Transaction) : Except String Block :=
  if 1000 ≤ b.transactions.length then
    .error "Block is full"
  else
    let txs' := b.transactions ++ [tx]
    .ok { b with transactions := txs',
                 merkleRoot := Block.calculateMerkleRoot txs',
                 gasUsed := Block.calculateTotalGas txs',
                 reward := Block.calculateBlockReward (Block.calculateTotalGas txs') b.validator }

/-- `Block.fromJSON(json)`: rebuilds via the constructor and then overwrites
every constructor-computed field from the stored record, restoring each field
verbatim. -/
def Block.fromJSON (j : Block) : Block :=
  { Block.make j.index 0 (j.transactions.map Transaction.fromJSON) j.previousHash j.validator with
      timestamp := j.timestamp, merkleRoot := j.merkleRoot, nonce := j.nonce,
      difficulty := j.difficulty, hash := j.hash, quantumProof := j.quantumProof,
      gasUsed := j.gasUsed, reward := j.reward }

/-! ## The merkle computation as the spec words it (§4.2)

The spec describes the root as: leaves are `tx.getHash()` in transaction
order; repeatedly hash-combine adjacent pairs, duplicating the last leaf if a
level has odd count, until one root remains; the empty set yields the fixed
sentinel root. The definitions below transcribe those words; the refinement
theorem compares them with the source-derived computation above. -/

/-- Modelled from the spec: one combination level — hash adjacent pairs,
duplicating the last element when the level has odd count. -/
def specMerkleLevel : List String → List String
  | [] => []
  | [a] => [blockSha256 (a ++ a)]
  | a :: b :: rest => blockSha256 (a ++ b) :: specMerkleLevel rest

/-- Each spec level halves the node count, rounding up. -/
theorem specMerkleLevel_length : ∀ l : List String,
    (specMerkleLevel l).length = (l.length + 1) / 2
  | [] => by simp [specMerkleLevel]
  | [_] => by simp [specMerkleLevel]
  | _ :: _ :: rest => by
      simp [specMerkleLevel, specMerkleLevel_length rest]; omega

/-- Modelled from the spec: repeat the combination level until one root
remains. -/
def specMerkleLoop : List String → String
  | [] => "0"
  | [h] => h
  | a :: b :: rest => specMerkleLoop (specMerkleLevel (a :: b :: rest))
termination_by l => l.length
decreasing_by simp [specMerkleLevel_length]; omega

/-- Modelled from the spec: the merkle root over a list of leaves, the empty
set going to the fixed sentinel root. -/
def specMerkleRoot (leaves : List String) : String :=
  match leaves with
  | [] => "0"
  | _ :: _ => specMerkleLoop leaves

/-! ## Blockchain (the `Blockchain` class of `src/blockchain/BlockchainCore.js`) -/

/-- The `stats` record of the `Blockchain` class. -/
structure ChainStats where
  totalBlocks : Int
  totalTransactions : Int
  totalGasUsed : Int
  totalRewards : ℚ
deriving Repr

/-- The `Blockchain` class state: the chain, proof-of-work difficulty, the
pending pool, the mining reward, the validator registry and the running
stats. (The `wallets` map is write-only bookkeeping never read by any
operation embedded here and is omitted.) -/
structure Blockchain where
  chain : List Block
  difficulty : Nat
  pendingTransactions : List Transaction
  miningReward : Int
  validators : List String
  stats : ChainStats
deriving Repr

/-- `createGenesisBlock()`: `new Block(0, [], '0', 'genesis')` with the hash
assigned from `calculateHash()`. `t0` is the constructor's `Date.now()`. -/
def createGenesisBlock (t0 : Int) : Block :=
  let g := Block.make 0 t0 [] (some "0") (some "genesis")
  { g with hash := some (Block.calculateHash g) }

/-- `new Blockchain()`: genesis-only chain, difficulty 4, empty pending pool,
mining reward 100. -/
def Blockchain.fresh (t0 : Int) : Blockchain :=
  { chain := [createGenesisBlock t0], difficulty := 4,
    pendingTransactions := [], miningReward := 100, validators := [],
    stats := { totalBlocks := 1, totalTransactions := 0, totalGasUsed := 0,
               totalRewards := 0 } }

/-- `getLatestBlock()`: `this.chain[this.chain.length - 1]` (the chain is
never empty along any embedded operation). -/
def Blockchain.getLatestBlock (s : Blockchain) : Option Block :=
  s.chain.getLast?

/-- `getBalance(address)`: replay every transaction of every block, debiting
matches on `from` and crediting matches on `to`. A `null` sender never
matches a string address, as with JS `===`. -/
def Blockchain.getBalance (s : Blockchain) (address : String) : Int :=
  s.chain.foldl
    (fun bal b =>
      b.transactions.foldl
        (fun bal tx =>
          let bal := if tx.from_ = some address then bal - tx.amount else bal
          if tx.to_ = some address then bal + tx.amount else bal)
        bal)
    0

/-- `validateTransaction(transaction)`: the signature must be present, and a
non-null sender must have `getBalance(from) ≥ amount`. The balance is read
from the chain only; the pending pool is not consulted. -/
def Blockchain.validateTransaction (s : Blockchain) (tx : Transaction) : Bool :=
  match tx.quantumSignature with
  | none => false
  | some _ =>
      match tx.from_ with
      | none => true
      | some a => ! (Blockchain.getBalance s a < tx.amount : Bool)

/-- `createTransaction(transaction)`: throws `'Invalid transaction'` when
`validateTransaction` fails (the `instanceof` guard is vacuous in the typed
embedding), otherwise pushes onto the pending pool and returns the id. The
state is returned alongside the outcome: a throw happens before the push, so
the failing branch returns the state unchanged. -/
def Blockchain.createTransaction (s : Blockchain) (tx : Transaction) :
    Except String String × Blockchain :=
  if Blockchain.validateTransaction s tx then
    (.ok tx.id, { s with pendingTransactions := s.pendingTransactions ++ [tx] })
  else
    (.error "Invalid transaction", s)

/-- `updateStats(block)`: bump the running totals with the new block. -/
def Blockchain.updateStats (st : ChainStats) (b : Block) : ChainStats :=
  { totalBlocks := st.totalBlocks + 1,
    totalTransactions := st.totalTransactions + b.transactions.length,
    totalGasUsed := st.totalGasUsed + b.gasUsed,
    totalRewards := st.totalRewards + b.reward }

/-- `minePendingTransactions(miningRewardAddress, validator = null)`: build
the reward transaction (`from = null`, unsigned), prepend it to the frozen
pending set, construct and mine the block, `validate()` it, and only then
append, update stats and clear the pool; a validation failure throws
`'Block validation failed: …'` with the state untouched. `rtId`/`rtTime` are
the reward transaction's environmental id and timestamp, `btTime` the block's
`Date.now()`, and `fuel` bounds the nonce search (`none` from the search —
a search still running at the bound — is surfaced as an error as well). -/
def Blockchain.minePendingTransactions (env : SigningEnv) (fuel : Nat)
    (rtId : String) (rtTime btTime : Int) (s : Blockchain)
    (miningRewardAddress : String) (validator : Option String) :
    Except String Blockchain :=
  let rewardTx := Transaction.make rtId none (some miningRewardAddress)
    s.miningReward (Json.obj [("type", Json.str "mining_reward")]) rtTime
  let txs := rewardTx :: s.pendingTransactions
  let b := Block.make s.chain.length btTime txs
    ((Blockchain.getLatestBlock s).bind (·.hash)) validator
  match Block.mineLoop env b fuel with
  | none => .error "mining search did not terminate within the fuel bound"
  | some mined =>
      let v := Block.validate env mined
      if v.valid then
        .ok { s with chain := s.chain ++ [mined],
                     stats := Blockchain.updateStats s.stats mined,
                     pendingTransactions := [] }
      else
        .error ("Block validation failed: " ++ (v.error.getD ""))

/-- The `{valid, error?}` result of `isChainValid()`. -/
structure ChainCheck where
  valid : Bool
  error : Option String
deriving Repr

/-- The loop body of `isChainValid()`: from index 1, each block must pass
`validate()` and link to its predecessor's hash; the first failure is
reported with its index. -/
def chainCheckFrom (env : SigningEnv) (i : Nat) : Block → List Block → ChainCheck
  | _, [] => ⟨true, none⟩
  | prev, b :: rest =>
      let v := Block.validate env b
      if ! v.valid then
        ⟨false, some ("Block " ++ toString i ++ ": " ++ (v.error.getD ""))⟩
      else if b.previousHash ≠ prev.hash then
        ⟨false, some ("Block " ++ toString i ++ ": Previous hash mismatch")⟩
      else chainCheckFrom env (i + 1) b rest

/-- `isChainValid()`: run the pairwise check from index 1 (a genesis-only
chain is vacuously valid). -/
def Blockchain.isChainValid (env : SigningEnv) (s : Blockchain) : ChainCheck :=
  match s.chain with
  | [] => ⟨true, none⟩
  | g :: rest => chainCheckFrom env 1 g rest

/-- The serialized state consumed by `import(data)` (the shape produced by
`export()`). -/
structure BlockchainExport where
  chain : List Block
  difficulty : Nat
  pendingTransactions : List Transaction
  miningReward : Int
  validators : List String
  stats : ChainStats
deriving Repr

/-- `import(data)`: overwrite chain, difficulty, pending pool, mining reward,
validators and stats from the candidate, reconstructing blocks and
transactions with `fromJSON`. No validation is performed before the swap. -/
def Blockchain.import (s : Blockchain) (d : BlockchainExport) : Blockchain :=
  { s with chain := d.chain.map Block.fromJSON,
           difficulty := d.difficulty,
           pendingTransactions := d.pendingTransactions.map Transaction.fromJSON,
           miningReward := d.miningReward,
           validators := d.validators,
           stats := d.stats }

/-! ## Consensus (`src/validators/ValidatorNetwork.js`) -/

/-- The per-validator result object produced by
`AIValidator.validateTransaction`: an approval flag with the proposed gas
reduction, processing fee, confidence and optimized gas. -/
structure OpinionResult where
  valid : Bool
  gasReduction : ℚ
  processingFee : ℚ
  confidence : ℚ
  optimizedGas : ℚ
deriving Repr

/-- One element of `validationResults` in `validateTransaction`: the
validator's id, its opinion and its consensus weight (as computed by
`calculateValidatorWeight`). -/
structure ValidationEntry where
  validatorId : String
  result : OpinionResult
  weight : ℚ
deriving Repr

/-- A left fold accumulating `f` over the entries, mirroring one of the
accumulator variables of `computeConsensus`'s single loop. -/
def accumW (f : ValidationEntry → ℚ) (rs : List ValidationEntry) : ℚ :=
  rs.foldl (fun acc r => acc + f r) 0

/-- `totalWeight`: every participating entry's weight. -/
def totalWeight (rs : List ValidationEntry) : ℚ :=
  accumW (fun r => r.weight) rs

/-- `validWeight`: the weight of the approving entries. -/
def validWeight (rs : List ValidationEntry) : ℚ :=
  accumW (fun r => if r.result.valid then r.weight else 0) rs

/-- `totalGasReduction`: Σ `gasReduction · weight` over approving entries. -/
def gasSumW (rs : List ValidationEntry) : ℚ :=
  accumW (fun r => if r.result.valid then r.result.gasReduction * r.weight else 0) rs

/-- `totalProcessingFee`: Σ `processingFee · weight` over approving entries. -/
def feeSumW (rs : List ValidationEntry) : ℚ :=
  accumW (fun r => if r.result.valid then r.result.processingFee * r.weight else 0) rs

/-- `totalConfidence`: Σ `confidence · weight` over approving entries. -/
def confSumW (rs : List ValidationEntry) : ℚ :=
  accumW (fun r => if r.result.valid then r.result.confidence * r.weight else 0) rs

/-- `this.consensusThreshold`: 0.67. -/
def consensusThreshold : ℚ := 67 / 100

/-- `consensusRatio = validWeight / totalWeight`. -/
def consensusRatioVal (rs : List ValidationEntry) : ℚ :=
  validWeight rs / totalWeight rs

/-- The two shapes `computeConsensus` returns: a rejection with a reason, or
an approval carrying the ratio, the floored average gas reduction, the
average processing fee, the first entry's optimized gas, the average
confidence and the participant count. -/
inductive ConsensusResult where
  | rejected (error : String)
  | approved (ratioVal : ℚ) (gasReduction : ℤ) (processingFee : ℚ)
      (optimizedGas : ℚ) (confidence : ℚ) (validatorCount : ℕ)
deriving Repr

/-- The `valid` flag of a `computeConsensus` result. -/
def ConsensusResult.valid : ConsensusResult → Bool
  | .rejected _ => false
  | .approved .. => true

/-- The reported `gasReduction` of an approved result. -/
def ConsensusResult.gasOut : ConsensusResult → Option ℤ
  | .rejected _ => none
  | .approved _ g _ _ _ _ => some g

/-- The reported `processingFee` of an approved result. -/
def ConsensusResult.feeOut : ConsensusResult → Option ℚ
  | .rejected _ => none
  | .approved _ _ f _ _ _ => some f

/-- `computeConsensus(validationResults)`: empty input is rejected; otherwise
the weighted ratio decides against the threshold, and on approval the
averages divide the approving-weighted sums by `totalWeight` — except the
confidence, which divides by `validWeight`. `gasReduction` is floored
(`Math.floor`). In the source a zero `totalWeight` would make the ratio the
float `NaN`, which compares false against the threshold; the claims below
therefore carry a positive-total-weight hypothesis, met by every weight
`calculateValidatorWeight` produces. -/
def computeConsensus (rs : List ValidationEntry) : ConsensusResult :=
  match rs with
  | [] => .rejected "No validation results"
  | r :: rest =>
      let l := r :: rest
      if consensusRatioVal l < consensusThreshold then
        .rejected "Consensus not reached"
      else
        .approved (consensusRatioVal l)
          ⌊gasSumW l / totalWeight l⌋
          (feeSumW l / totalWeight l)
          r.result.optimizedGas
          (confSumW l / validWeight l)
          l.length

/-- Modelled from the spec (§4.4): the weight-normalized average over the
*approving* opinions — each approving value times its weight, summed, divided
by the total weight of the approving opinions. -/
def specApprovingAvg (value : OpinionResult → ℚ) (rs : List ValidationEntry) : ℚ :=
  ((rs.filter (fun r => r.result.valid)).map (fun r => value r.result * r.weight)).sum /
    ((rs.filter (fun r => r.result.valid)).map (fun r => r.weight)).sum

/-! ## Concrete scenario data

Closed inputs used by the scenario claims, their witnesses and the
counterexamples. -/

/-- A corrupted candidate block: its stored hash is not its recomputed hash,
so `validate()` rejects it. -/
def c4Bad : Block :=
  { Block.make 1 1 [] (some "x") none with hash := some "deadbeef" }

/-- A candidate export whose chain fails validation at index 1. -/
def c4Data : BlockchainExport :=
  { chain := [createGenesisBlock 0, c4Bad], difficulty := 4,
    pendingTransactions := [], miningReward := 100, validators := [],
    stats := ⟨2, 0, 0, 0⟩ }

/-- An unmined empty block at timestamp 22, whose proof-of-work search
happens to finish at nonce 102. -/
def c9base : Block := Block.make 1 22 [] (some "0") none

/-- The block `mine()` produces from `c9base`: nonce 102, hash assigned from
the recomputation at that nonce (and it meets the difficulty-4 target). -/
def c9mined : Block :=
  { c9base with
    nonce := 102
    hash := some (Block.calculateHash { c9base with nonce := 102 }) }

/-- A plain transaction used against `addTransaction`. -/
def c9tx : Transaction :=
  Transaction.make "t" (some "alice") (some "bob") 1 Json.null 1

/-- The approving 0.6-weight opinion of the spec's consensus scenario. -/
def scOp06 : ValidationEntry := ⟨"v1", ⟨true, 0, 0, 1, 0⟩, 3/5⟩

/-- The non-approving 0.4-weight opinion of the spec's consensus scenario. -/
def scOp04 : ValidationEntry := ⟨"v2", ⟨false, 0, 0, 1, 0⟩, 2/5⟩

/-- An approving opinion of weight 0.8 proposing gas reduction 100 and
processing fee 100. -/
def cxA : ValidationEntry := ⟨"a", ⟨true, 100, 100, 1, 0⟩, 4/5⟩

/-- A non-approving opinion of weight 0.2. -/
def cxB : ValidationEntry := ⟨"b", ⟨false, 0, 0, 1, 0⟩, 1/5⟩

/-- A lone approving opinion of weight one half. -/
def c8Base : ValidationEntry := ⟨"w1", ⟨true, 0, 0, 1, 0⟩, 1/2⟩

/-- An extra approving opinion of weight one quarter. -/
def c8New : ValidationEntry := ⟨"w2", ⟨true, 0, 0, 1, 0⟩, 1/4⟩

/-- A plain transaction used as a merkle leaf. -/
def c6tx : Transaction :=
  Transaction.make "c6" (some "alice") (some "bob") 7 Json.null 3

/-- An unsigned submission of 30 from `alice`, who has balance 0 on a fresh
ledger — signed, so that only the balance check can reject it. -/
def c3Tx : Transaction :=
  { Transaction.make "t" (some "alice") (some "bob") 30 Json.null 0 with
      quantumSignature := some Json.null }

/-- A reward-style mint of 100 to `alice`, already on the chain. -/
def c10Mint : Transaction :=
  Transaction.make "mint" none (some "alice") 100 Json.null 0

/-- A block carrying the mint to `alice`. -/
def c10Block : Block := Block.make 1 0 [c10Mint] (some "g") none

/-- A ledger on which `alice` has chain balance 100 and the pool is empty. -/
def c10State : Blockchain :=
  { chain := [createGenesisBlock 0, c10Block], difficulty := 4,
    pendingTransactions := [], miningReward := 100, validators := [],
    stats := ⟨2, 1, 0, 0⟩ }

/-- A signed spend of the full balance 100 from `alice` to `bob`. -/
def c10Tx1 : Transaction :=
  { Transaction.make "t1" (some "alice") (some "bob") 100 Json.null 1 with
      quantumSignature := some Json.null }

/-- A second signed spend of the full balance 100 from `alice` to `carol`. -/
def c10Tx2 : Transaction :=
  { Transaction.make "t2" (some "alice") (some "carol") 100 Json.null 2 with
      quantumSignature := some Json.null }

/-! ## General lemmas -/

/-- A left fold that adds `f` of each element equals the initial value plus
the sum of the mapped list. -/
theorem foldl_add_eq (f : ValidationEntry → ℚ) :
    ∀ (rs : List ValidationEntry) (a : ℚ),
      rs.foldl (fun acc r => acc + f r) a = a + (rs.map f).sum
  | [], a => by simp
  | r :: rs, a => by
      simp only [List.foldl_cons, List.map_cons, List.sum_cons,
        foldl_add_eq f rs (a + f r)]
      ring

/-- The accumulator fold is the sum of the mapped list. -/
theorem accumW_eq_sum (f : ValidationEntry → ℚ) (rs : List ValidationEntry) :
    accumW f rs = (rs.map f).sum := by
  simpa [accumW] using foldl_add_eq f rs 0

/-- A guarded sum is the sum over the filtered list. -/
theorem sum_ite_filter (p : ValidationEntry → Bool) (f : ValidationEntry → ℚ) :
    ∀ l : List ValidationEntry,
      (l.map (fun x => if p x then f x else 0)).sum = ((l.filter p).map f).sum
  | [] => rfl
  | x :: l => by
      by_cases h : p x <;>
        simp [h, List.filter_cons, sum_ite_filter p f l]

/-- The accumulated approving gas sum, written as a filtered sum. -/
theorem gasSumW_eq_filter (l : List ValidationEntry) :
    gasSumW l = ((l.filter (fun e => e.result.valid)).map
      (fun e => e.result.gasReduction * e.weight)).sum := by
  rw [gasSumW, accumW_eq_sum, sum_ite_filter]

/-- The accumulated approving fee sum, written as a filtered sum. -/
theorem feeSumW_eq_filter (l : List ValidationEntry) :
    feeSumW l = ((l.filter (fun e => e.result.valid)).map
      (fun e => e.result.processingFee * e.weight)).sum := by
  rw [feeSumW, accumW_eq_sum, sum_ite_filter]

/-- Appending one entry adds its weight to the total weight. -/
theorem totalWeight_append (rs : List ValidationEntry) (op : ValidationEntry) :
    totalWeight (rs ++ [op]) = totalWeight rs + op.weight := by
  simp [totalWeight, accumW_eq_sum]

/-- Appending an approving entry adds its weight to the approving weight. -/
theorem validWeight_append_valid (rs : List ValidationEntry) (op : ValidationEntry)
    (h : op.result.valid = true) :
    validWeight (rs ++ [op]) = validWeight rs + op.weight := by
  simp [validWeight, accumW_eq_sum, h]

/-- With nonnegative weights, the approving weight is nonnegative. -/
theorem validWeight_nonneg (rs : List ValidationEntry)
    (h : ∀ r ∈ rs, 0 ≤ r.weight) : 0 ≤ validWeight rs := by
  rw [validWeight, accumW_eq_sum]
  apply List.sum_nonneg
  intro x hx
  obtain ⟨r, hr, rfl⟩ := List.mem_map.mp hx
  by_cases hv : r.result.valid <;> simp [hv, h r hr]

/-- With nonnegative weights, the approving weight is at most the total. -/
theorem validWeight_le_totalWeight (rs : List ValidationEntry)
    (h : ∀ r ∈ rs, 0 ≤ r.weight) : validWeight rs ≤ totalWeight rs := by
  rw [validWeight, totalWeight, accumW_eq_sum, accumW_eq_sum]
  apply List.sum_le_sum
  intro r hr
  by_cases hv : r.result.valid <;> simp [hv, h r hr]

/-- A block holding a transaction that fails `verify` never validates: every
branch of `validate` except the all-checks-pass one carries `valid = false`,
and the transaction sweep cannot come back empty. -/
theorem validate_valid_false (env : SigningEnv) (b : Block)
    (h : ∃ tx ∈ b.transactions,
      Transaction.verify env tx "placeholder_public_key" = false) :
    (Block.validate env b).valid = false := by
  unfold Block.validate
  split
  · rfl
  split
  · rfl
  split
  · rfl
  split
  · rfl
  cases hf : b.transactions.find?
      (fun tx => ! Transaction.verify env tx "placeholder_public_key") with
  | some tx => simp [hf]
  | none =>
      obtain ⟨tx, htx, hv⟩ := h
      have := List.find?_eq_none.mp hf tx htx
      simp [hv] at this

/-- One mining iteration does not touch the transaction list. -/
theorem mineStep_transactions (env : SigningEnv) (b : Block) :
    (Block.mineStep env b).transactions = b.transactions := by
  unfold Block.mineStep
  by_cases h : (b.nonce + 1) % 1000 = 0 <;> simp [h]

/-- The nonce search does not touch the transaction list. -/
theorem mineLoop_transactions (env : SigningEnv) :
    ∀ (fuel : Nat) (b m : Block), Block.mineLoop env b fuel = some m →
      m.transactions = b.transactions
  | 0, b, m => by simp [Block.mineLoop]
  | fuel + 1, b, m => by
      unfold Block.mineLoop
      split
      · intro h
        cases h
        rfl
      · intro h
        rw [mineLoop_transactions env fuel _ m h, mineStep_transactions]

/-- `minePendingTransactions` can never return normally: the reward
transaction it creates is unsigned, `Transaction.verify` rejects a `null`
signature, and `Block.validate` therefore fails on every candidate block,
whatever the signing environment, fuel, miner address or prior state. -/
theorem mine_always_fails (env : SigningEnv) (fuel : Nat) (rtId : String)
    (rtTime btTime : Int) (s : Blockchain) (addr : String)
    (val : Option String) :
    (Blockchain.minePendingTransactions env fuel rtId rtTime btTime s addr
      val).isOk = false := by
  unfold Blockchain.minePendingTransactions
  cases hm : Block.mineLoop env
      (Block.make s.chain.length btTime
        (Transaction.make rtId none (some addr) s.miningReward
            (Json.obj [("type", Json.str "mining_reward")]) rtTime ::
          s.pendingTransactions)
        ((Blockchain.getLatestBlock s).bind (fun b => b.hash)) val) fuel with
  | none => simp [hm, Except.isOk, Except.toBool]
  | some mined =>
      have htx := mineLoop_transactions env fuel _ mined hm
      have hbad : (Block.validate env mined).valid = false := by
        apply validate_valid_false
        refine ⟨Transaction.make rtId none (some addr) s.miningReward
          (Json.obj [("type", Json.str "mining_reward")]) rtTime, ?_, rfl⟩
        rw [htx]
        exact List.mem_cons_self _ _
      simp [hm, hbad, Except.isOk, Except.toBool]

/-- `createTransaction` never touches the chain. -/
theorem createTransaction_chain (s : Blockchain) (tx : Transaction) :
    ((Blockchain.createTransaction s tx).2).chain = s.chain := by
  unfold Blockchain.createTransaction
  split <;> rfl

/-- Balances only read the chain. -/
theorem getBalance_congr (s s' : Blockchain) (a : String)
    (h : s.chain = s'.chain) :
    Blockchain.getBalance s a = Blockchain.getBalance s' a := by
  unfold Blockchain.getBalance
  rw [h]

/-- A string of positive length is not the empty string. -/
theorem string_ne_empty_of_length_pos (s : String) (h : 0 < s.length) :
    s ≠ "" := by
  intro he
  subst he
  exact absurd h (by decide)

/-- The hex rendering loop never shrinks the accumulator. -/
theorem natToHexCore_len :
    ∀ (fuel n : Nat) (acc : List Char),
      acc.length ≤ (natToHexCore fuel n acc).length
  | 0, _, acc => le_refl _
  | fuel + 1, n, acc => by
      unfold natToHexCore
      split
      · exact le_refl _
      · exact le_trans (by simp) (natToHexCore_len fuel (n / 16) _)

/-- Hexadecimal renderings are never empty. -/
theorem natToHex_ne_empty (n : Nat) : natToHex n ≠ "" := by
  unfold natToHex
  split
  · decide
  · next h =>
      apply string_ne_empty_of_length_pos
      show 0 < (natToHexCore (n + 1) n []).length
      have h2 : natToHexCore (n + 1) n ([] : List Char) =
          natToHexCore n (n / 16) [hexDigitChar (n % 16)] := by
        show (if n = 0 then ([] : List Char)
          else natToHexCore n (n / 16) [hexDigitChar (n % 16)]) = _
        rw [if_neg h]
      rw [h2]
      exact Nat.lt_of_lt_of_le Nat.zero_lt_one
        (by simpa using natToHexCore_len n (n / 16) [hexDigitChar (n % 16)])

/-- Length of the zero-padded string. -/
theorem padStart8_length (s : String) :
    (padStart8 s).length = (8 - s.length) + s.length := by
  rw [padStart8, String.length_append]
  have h : (String.mk (List.replicate (8 - s.length) '0')).length = 8 - s.length := by
    show (List.replicate (8 - s.length) '0').length = 8 - s.length
    exact List.length_replicate _ _
  rw [h]

/-- Zero-padded strings are never empty. -/
theorem padStart8_ne_empty (s : String) : padStart8 s ≠ "" := by
  apply string_ne_empty_of_length_pos
  rw [padStart8_length]
  omega

/-- The padded block hash is never the empty string. -/
theorem blockSha256_ne_empty (s : String) : blockSha256 s ≠ "" :=
  padStart8_ne_empty _

/-- Transaction leaf hashes are never the empty string. -/
theorem getHash_ne_empty (tx : Transaction) : Transaction.getHash tx ≠ "" :=
  natToHex_ne_empty _

/-- On levels free of empty strings the source's `||`-based pairing agrees
with the spec's pairing. -/
theorem merkleLevel_eq_spec :
    ∀ l : List String, (∀ x ∈ l, x ≠ "") →
      merkleLevel l = specMerkleLevel l
  | [], _ => rfl
  | [a], _ => rfl
  | a :: b :: rest, h => by
      have hb : b ≠ "" := h b (by simp)
      simp only [merkleLevel, specMerkleLevel, if_neg hb,
        merkleLevel_eq_spec rest (fun x hx => h x (by simp [hx]))]

/-- Every combined node is a padded hash, hence nonempty. -/
theorem specMerkleLevel_ne_empty :
    ∀ (l : List String) (x : String), x ∈ specMerkleLevel l → x ≠ ""
  | [], x, hx => by simp [specMerkleLevel] at hx
  | [a], x, hx => by
      simp only [specMerkleLevel, List.mem_singleton] at hx
      subst hx
      exact blockSha256_ne_empty _
  | a :: b :: rest, x, hx => by
      simp only [specMerkleLevel, List.mem_cons] at hx
      rcases hx with rfl | hx
      · exact blockSha256_ne_empty _
      · exact specMerkleLevel_ne_empty rest x hx

/-- On leaf lists free of empty strings the source's level fold agrees with
the spec's level fold. -/
theorem merkleLoop_eq_spec :
    ∀ l : List String, (∀ x ∈ l, x ≠ "") →
      merkleLoop l = specMerkleLoop l
  | [], _ => by simp [merkleLoop, specMerkleLoop]
  | [a], _ => by simp [merkleLoop, specMerkleLoop]
  | a :: b :: rest, h => by
      rw [merkleLoop, specMerkleLoop, merkleLevel_eq_spec _ h]
      exact merkleLoop_eq_spec (specMerkleLevel (a :: b :: rest))
        (specMerkleLevel_ne_empty _)
termination_by l => l.length
decreasing_by simp [specMerkleLevel_length]; omega

/-- A successful submission appends the transaction to the pending pool and
returns the transaction id. -/
theorem createTransaction_ok (s : Blockchain) (tx : Transaction)
    (h : Blockchain.validateTransaction s tx = true) :
    Blockchain.createTransaction s tx =
      (.ok tx.id,
        { s with pendingTransactions := s.pendingTransactions ++ [tx] }) := by
  unfold Blockchain.createTransaction
  simp [h]

/-- The consensus ratio of the spec's two-validator scenario is 0.6. -/
theorem sc_ratio : consensusRatioVal [scOp06, scOp04] = 3 / 5 := by
  norm_num [consensusRatioVal, validWeight, totalWeight, accumW, scOp06, scOp04]

/-- The spec's two-validator scenario is rejected by `computeConsensus`. -/
theorem sc_rejected :
    computeConsensus [scOp06, scOp04] = .rejected "Consensus not reached" := by
  have h : consensusRatioVal [scOp06, scOp04] < consensusThreshold := by
    rw [sc_ratio]
    norm_num [consensusThreshold]
  simp [computeConsensus, h]

/-- The 0.8/0.2 split meets the threshold. -/
theorem cx_not_lt : ¬ consensusRatioVal [cxA, cxB] < consensusThreshold := by
  norm_num [consensusRatioVal, validWeight, totalWeight, accumW, cxA, cxB,
    consensusThreshold]

/-- The code reports gas reduction 80 on the 0.8/0.2 split. -/
theorem cx_gas : (computeConsensus [cxA, cxB]).gasOut = some 80 := by
  simp only [computeConsensus, if_neg cx_not_lt, ConsensusResult.gasOut]
  norm_num [gasSumW, totalWeight, accumW, cxA, cxB]

/-- The code reports processing fee 80 on the 0.8/0.2 split. -/
theorem cx_fee : (computeConsensus [cxA, cxB]).feeOut = some 80 := by
  simp only [computeConsensus, if_neg cx_not_lt, ConsensusResult.feeOut]
  norm_num [feeSumW, totalWeight, accumW, cxA, cxB]

/-- The spec's approving-weight average gas reduction on that split is 100. -/
theorem cx_spec_gas :
    specApprovingAvg (fun r => r.gasReduction) [cxA, cxB] = 100 := by
  norm_num [specApprovingAvg, cxA, cxB]

/-- The spec's approving-weight average processing fee on that split is 100. -/
theorem cx_spec_fee :
    specApprovingAvg (fun r => r.processingFee) [cxA, cxB] = 100 := by
  norm_num [specApprovingAvg, cxA, cxB]

/-! ## Claims -/

/-- C1: the claim reads "for every chain built from a fresh Ledger solely by
successful calls to minePendingTransactions, isChainValid() on the resulting
chain reports valid". On this code no call to `minePendingTransactions` can
succeed at all — the reward transaction it creates is unsigned and
`Block.validate` rejects every candidate block over any signing environment,
fuel bound, prior state, miner address and validator — so the only chain
reachable through mining is the fresh genesis-only chain, which
`isChainValid` accepts vacuously. -/
theorem c1_chains_via_mining :
    (∀ (env : SigningEnv) (fuel : Nat) (rtId : String) (rtTime btTime : Int)
        (s : Blockchain) (addr : String) (val : Option String),
      (Blockchain.minePendingTransactions env fuel rtId rtTime btTime s addr
        val).isOk = false) ∧
    (∀ (env : SigningEnv) (t0 : Int),
      (Blockchain.isChainValid env (Blockchain.fresh t0)).valid = true) :=
  ⟨mine_always_fails, fun _ _ => rfl⟩

/-- C2: the claimed scenario — fresh ledger, submit `tx(null → "bob", 100)`,
mine once, reach chain length 2 and balance 100 — cannot be executed by this
code: submitted unsigned (as the spec allows for a `null` sender) the
transaction is rejected outright, the mining call always throws whatever the
signature, and the ledger stays at chain length 1 with `getBalance("bob") = 0`. -/
theorem c2_reward_scenario_fails (env : SigningEnv) (fuel : Nat)
    (txId rtId : String) (txTime rtTime btTime t0 : Int) (sig : Option Json)
    (m : String) (val : Option String) :
    (sig = none →
      ((Blockchain.fresh t0).createTransaction
        { Transaction.make txId none (some "bob") 100 Json.null txTime with
            quantumSignature := sig }).1 = .error "Invalid transaction") ∧
    (Blockchain.minePendingTransactions env fuel rtId rtTime btTime
      ((Blockchain.fresh t0).createTransaction
        { Transaction.make txId none (some "bob") 100 Json.null txTime with
            quantumSignature := sig }).2 m val).isOk = false ∧
    ((Blockchain.fresh t0).createTransaction
      { Transaction.make txId none (some "bob") 100 Json.null txTime with
          quantumSignature := sig }).2.chain.length = 1 ∧
    ((Blockchain.fresh t0).createTransaction
      { Transaction.make txId none (some "bob") 100 Json.null txTime with
          quantumSignature := sig }).2.getBalance "bob" = 0 := by
  refine ⟨?_, mine_always_fails env fuel rtId rtTime btTime _ m val, ?_, ?_⟩
  · intro hs
    subst hs
    simp [Blockchain.createTransaction, Blockchain.validateTransaction]
  · rw [createTransaction_chain]
    rfl
  · rw [getBalance_congr _ (Blockchain.fresh t0) _ (createTransaction_chain _ _)]
    rfl

/-- C2 witness: the scenario instantiated at concrete environmental inputs. -/
theorem c2_reward_scenario_fails_check :
    ((Blockchain.fresh 0).createTransaction
      { Transaction.make "tx" none (some "bob") 100 Json.null 0 with
          quantumSignature := none }).1 = .error "Invalid transaction" ∧
    (Blockchain.minePendingTransactions trivEnv 0 "rt" 0 0
      ((Blockchain.fresh 0).createTransaction
        { Transaction.make "tx" none (some "bob") 100 Json.null 0 with
            quantumSignature := none }).2 "miner" none).isOk = false := by
  have h := c2_reward_scenario_fails trivEnv 0 "tx" "rt" 0 0 0 0 none "miner" none
  exact ⟨h.1 rfl, h.2.1⟩

/-- C3: a submission whose amount exceeds the chain balance of its non-null
sender is rejected with an error and leaves the pending pool (hence its
length and contents) unchanged. -/
theorem c3_insufficient_balance_rejected (s : Blockchain) (tx : Transaction)
    (a : String) (hf : tx.from_ = some a)
    (hb : Blockchain.getBalance s a < tx.amount) :
    (Blockchain.createTransaction s tx).1 = .error "Invalid transaction" ∧
    (Blockchain.createTransaction s tx).2.pendingTransactions =
      s.pendingTransactions := by
  have hv : Blockchain.validateTransaction s tx = false := by
    unfold Blockchain.validateTransaction
    cases hs : tx.quantumSignature with
    | none => rfl
    | some _ =>
        rw [hf]
        simp [hb]
  simp [Blockchain.createTransaction, hv]

/-- C3 witness: `tx(alice → bob, 30)` on a fresh ledger where `alice` has
balance 0. -/
theorem c3_insufficient_balance_rejected_check :
    ((Blockchain.fresh 0).createTransaction c3Tx).1 =
      .error "Invalid transaction" ∧
    ((Blockchain.fresh 0).createTransaction c3Tx).2.pendingTransactions =
      (Blockchain.fresh 0).pendingTransactions :=
  c3_insufficient_balance_rejected (Blockchain.fresh 0) c3Tx "alice" rfl
    (by decide)

set_option maxRecDepth 100000 in
/-- C4 counterexample: importing a candidate whose chain fails validation
still commits it — afterwards the ledger's chain is the invalid candidate
(`isChainValid` rejects it) and differs from the pre-import chain, refuting
"for every candidate that fails validation the pre-import state is left
completely unchanged". -/
theorem c4_import_commits_invalid :
    (Blockchain.isChainValid trivEnv
      (Blockchain.import (Blockchain.fresh 0) c4Data)).valid = false ∧
    (Blockchain.import (Blockchain.fresh 0) c4Data).chain.length ≠
      (Blockchain.fresh 0).chain.length := by
  constructor
  · decide
  · decide

/-- C4 as amended: `import` performs no validation at all — it
unconditionally overwrites the chain, the pending pool, the difficulty and
the mining reward with the candidate's values, whether or not the candidate
validates. -/
theorem c4_import_unconditional (s : Blockchain) (d : BlockchainExport) :
    (Blockchain.import s d).chain = d.chain.map Block.fromJSON ∧
    (Blockchain.import s d).pendingTransactions =
      d.pendingTransactions.map Transaction.fromJSON ∧
    (Blockchain.import s d).difficulty = d.difficulty ∧
    (Blockchain.import s d).miningReward = d.miningReward :=
  ⟨rfl, rfl, rfl, rfl⟩

/-- C5: with a nonempty participant list (and a positive total weight, as
every weight `calculateValidatorWeight` produces is), consensus approves
exactly when the weighted ratio reaches the 0.67 threshold; and in the spec's
scenario — weights 0.6 and 0.4 with only the 0.6 opinion approving — the
ratio is 0.6 and the transaction is rejected. -/
theorem c5_threshold_iff :
    (∀ (r : ValidationEntry) (rest : List ValidationEntry),
        0 < totalWeight (r :: rest) →
        ((computeConsensus (r :: rest)).valid = true ↔
          consensusThreshold ≤ consensusRatioVal (r :: rest))) ∧
    consensusRatioVal [scOp06, scOp04] = 3 / 5 ∧
    computeConsensus [scOp06, scOp04] = .rejected "Consensus not reached" := by
  refine ⟨?_, sc_ratio, sc_rejected⟩
  intro r rest _
  by_cases h : consensusRatioVal (r :: rest) < consensusThreshold
  · simp [computeConsensus, h, ConsensusResult.valid, not_le.mpr h]
  · simp [computeConsensus, h, ConsensusResult.valid, not_lt.mp h]

/-- C5 witness: the threshold equivalence instantiated on the scenario's
opinions. -/
theorem c5_threshold_iff_check :
    0 < totalWeight [scOp06, scOp04] ∧
    ((computeConsensus [scOp06, scOp04]).valid = true ↔
      consensusThreshold ≤ consensusRatioVal [scOp06, scOp04]) :=
  ⟨by norm_num [totalWeight, accumW, scOp06, scOp04],
   c5_threshold_iff.1 scOp06 [scOp04]
     (by norm_num [totalWeight, accumW, scOp06, scOp04])⟩

/-- C6: the source's merkle computation equals the spec's description of it
(leaves are `tx.getHash()` in transaction order; pairwise combination,
duplicating the last node of an odd level, down to one root), the empty
transaction set yields the fixed sentinel root `'0'`, and recomputation on
the same transaction list returns the same root. -/
theorem c6_merkle_spec :
    (∀ txs : List Transaction,
        Block.calculateMerkleRoot txs =
          specMerkleRoot (txs.map Transaction.getHash)) ∧
    Block.calculateMerkleRoot [] = "0" ∧
    (∀ txs txs' : List Transaction, txs = txs' →
        Block.calculateMerkleRoot txs = Block.calculateMerkleRoot txs') := by
  refine ⟨?_, rfl, ?_⟩
  · intro txs
    cases txs with
    | nil => rfl
    | cons t ts =>
        show merkleLoop ((t :: ts).map Transaction.getHash) =
          specMerkleRoot ((t :: ts).map Transaction.getHash)
        have hmap : (t :: ts).map Transaction.getHash =
            Transaction.getHash t :: ts.map Transaction.getHash := rfl
        rw [hmap]
        show merkleLoop (Transaction.getHash t :: ts.map Transaction.getHash) =
          specMerkleLoop (Transaction.getHash t :: ts.map Transaction.getHash)
        apply merkleLoop_eq_spec
        intro x hx
        rw [← hmap] at hx
        obtain ⟨tx, _, rfl⟩ := List.mem_map.mp hx
        exact getHash_ne_empty tx
  · intro txs txs' h
    rw [h]

/-- C6 witness: the refinement and determinism instantiated on concrete
transaction lists. -/
theorem c6_merkle_spec_check :
    Block.calculateMerkleRoot [c6tx] =
      specMerkleRoot ([c6tx].map Transaction.getHash) ∧
    Block.calculateMerkleRoot ([] : List Transaction) = "0" ∧
    Block.calculateMerkleRoot [c6tx, c6tx] =
      Block.calculateMerkleRoot [c6tx, c6tx] :=
  ⟨c6_merkle_spec.1 [c6tx], c6_merkle_spec.2.1,
   c6_merkle_spec.2.2 [c6tx, c6tx] [c6tx, c6tx] rfl⟩

/-- C7 counterexample: on an approved outcome with an approving 0.8-weight
opinion proposing gas reduction 100 and fee 100 next to a non-approving
0.2-weight opinion, the code reports 80 for both — the approving weighted
sums divided by the *total* weight — while the claimed approving-weight
normalization gives 100 for both. -/
theorem c7_avg_mismatch :
    (computeConsensus [cxA, cxB]).valid = true ∧
    (computeConsensus [cxA, cxB]).gasOut ≠
      some ⌊specApprovingAvg (fun r => r.gasReduction) [cxA, cxB]⌋ ∧
    (computeConsensus [cxA, cxB]).feeOut ≠
      some (specApprovingAvg (fun r => r.processingFee) [cxA, cxB]) := by
  refine ⟨by simp [computeConsensus, if_neg cx_not_lt, ConsensusResult.valid],
    ?_, ?_⟩
  · rw [cx_gas, cx_spec_gas]
    norm_num
  · rw [cx_fee, cx_spec_fee]
    norm_num

/-- C7 as amended: on approval, the reported `gas_reduction` (floored) and
`processing_fee` are the approving-weighted sums divided by the total
participating weight — not by the approving weight alone. -/
theorem c7_avg_total_weight (r : ValidationEntry) (rest : List ValidationEntry)
    (h : consensusThreshold ≤ consensusRatioVal (r :: rest)) :
    (computeConsensus (r :: rest)).gasOut =
      some ⌊((((r :: rest).filter (fun e => e.result.valid)).map
        (fun e => e.result.gasReduction * e.weight)).sum /
          totalWeight (r :: rest))⌋ ∧
    (computeConsensus (r :: rest)).feeOut =
      some (((((r :: rest).filter (fun e => e.result.valid)).map
        (fun e => e.result.processingFee * e.weight)).sum) /
          totalWeight (r :: rest)) := by
  have hlt : ¬ consensusRatioVal (r :: rest) < consensusThreshold := not_lt.mpr h
  constructor
  · simp only [computeConsensus, if_neg hlt, ConsensusResult.gasOut,
      gasSumW_eq_filter]
  · simp only [computeConsensus, if_neg hlt, ConsensusResult.feeOut,
      feeSumW_eq_filter]

/-- C7 witness: the amended normalization instantiated on the 0.8/0.2
split. -/
theorem c7_avg_total_weight_check :
    (computeConsensus [cxA, cxB]).gasOut =
      some ⌊((([cxA, cxB].filter (fun e => e.result.valid)).map
        (fun e => e.result.gasReduction * e.weight)).sum /
          totalWeight [cxA, cxB])⌋ ∧
    (computeConsensus [cxA, cxB]).feeOut =
      some (((([cxA, cxB].filter (fun e => e.result.valid)).map
        (fun e => e.result.processingFee * e.weight)).sum) /
          totalWeight [cxA, cxB]) :=
  c7_avg_total_weight cxA [cxB] (not_lt.mp cx_not_lt)

/-- C8: adding one more approving opinion of positive weight to any
participant list with nonnegative weights and positive total never decreases
the consensus ratio. -/
theorem c8_ratio_monotone (rs : List ValidationEntry) (op : ValidationEntry)
    (hv : op.result.valid = true) (hw : 0 < op.weight)
    (hnn : ∀ r ∈ rs, 0 ≤ r.weight) (ht : 0 < totalWeight rs) :
    consensusRatioVal rs ≤ consensusRatioVal (rs ++ [op]) := by
  unfold consensusRatioVal
  rw [totalWeight_append, validWeight_append_valid rs op hv]
  have h1 : 0 ≤ validWeight rs := validWeight_nonneg rs hnn
  have h2 : validWeight rs ≤ totalWeight rs := validWeight_le_totalWeight rs hnn
  rw [div_le_div_iff₀ ht (by linarith)]
  nlinarith

/-- C8 witness: monotonicity instantiated on a one-opinion list extended by
an approving quarter-weight opinion. -/
theorem c8_ratio_monotone_check :
    consensusRatioVal [c8Base] ≤ consensusRatioVal ([c8Base] ++ [c8New]) :=
  c8_ratio_monotone [c8Base] c8New rfl (by norm_num [c8New])
    (by
      intro r hr
      rw [List.mem_singleton] at hr
      subst hr
      norm_num [c8Base])
    (by norm_num [totalWeight, accumW, c8Base])

set_option maxRecDepth 40000 in
/-- C9 counterexample: `c9mined` is exactly what `mine()` produces from
`c9base` (the nonce search ends at 102 and the stored hash meets the
proof-of-work target), yet `addTransaction` on this already-mined block
succeeds — refuting "it rejects when the block has already been mined". -/
theorem c9_mined_block_accepts :
    Block.mineLoop trivEnv c9base 103 = some c9mined ∧
    c9mined.powOk = true ∧
    (Block.addTransaction c9mined c9tx).toOption.isSome = true :=
  ⟨rfl, rfl, rfl⟩

/-- C9 as amended: `addTransaction` rejects exactly when the block already
holds 1000 transactions, leaving the block unchanged, and otherwise appends
the transaction — it performs no check that the block is still unmined. -/
theorem c9_cap_only (b : Block) (tx : Transaction) :
    (1000 ≤ b.transactions.length →
      Block.addTransaction b tx = .error "Block is full") ∧
    (b.transactions.length < 1000 →
      ∃ b', Block.addTransaction b tx = .ok b' ∧
        b'.transactions = b.transactions ++ [tx]) := by
  constructor
  · intro h
    unfold Block.addTransaction
    rw [if_pos h]
  · intro h
    exact ⟨_, by unfold Block.addTransaction; rw [if_neg (not_le.mpr h)], rfl⟩

/-- C9 witness: the cap rule instantiated on a full block and on an empty
block. -/
theorem c9_cap_only_check :
    Block.addTransaction
      { c9base with transactions := List.replicate 1000 c9tx } c9tx =
      .error "Block is full" ∧
    (∃ b', Block.addTransaction c9base c9tx = .ok b' ∧
      b'.transactions = c9base.transactions ++ [c9tx]) :=
  ⟨(c9_cap_only _ c9tx).1 (by
      show 1000 ≤ (List.replicate 1000 c9tx).length
      rw [List.length_replicate]),
   (c9_cap_only c9base c9tx).2 (by decide)⟩

/-- C10: the submission-time balance precondition reads only the chain and
ignores the pending pool: two signed spends of the full chain balance `B`
submitted in succession are both admitted, jointly overdrawing the sender. -/
theorem c10_pending_pool_ignored (s : Blockchain) (tx1 tx2 : Transaction)
    (a : String) (B : Int)
    (h1f : tx1.from_ = some a) (h2f : tx2.from_ = some a)
    (h1a : tx1.amount = B) (h2a : tx2.amount = B)
    (h1s : tx1.quantumSignature.isSome = true)
    (h2s : tx2.quantumSignature.isSome = true)
    (hbal : Blockchain.getBalance s a = B) (_hB : 0 < B) :
    (Blockchain.createTransaction s tx1).1 = .ok tx1.id ∧
    (Blockchain.createTransaction (Blockchain.createTransaction s tx1).2
      tx2).1 = .ok tx2.id ∧
    (Blockchain.createTransaction (Blockchain.createTransaction s tx1).2
      tx2).2.pendingTransactions = s.pendingTransactions ++ [tx1, tx2] := by
  have hv1 : Blockchain.validateTransaction s tx1 = true := by
    unfold Blockchain.validateTransaction
    cases hs : tx1.quantumSignature with
    | none => simp [hs] at h1s
    | some _ =>
        rw [h1f]
        simp [hbal, h1a]
  have hbal2 :
      Blockchain.getBalance (Blockchain.createTransaction s tx1).2 a = B := by
    rw [getBalance_congr _ s _ (createTransaction_chain _ _), hbal]
  have hv2 : Blockchain.validateTransaction
      (Blockchain.createTransaction s tx1).2 tx2 = true := by
    unfold Blockchain.validateTransaction
    cases hs : tx2.quantumSignature with
    | none => simp [hs] at h2s
    | some _ =>
        rw [h2f]
        simp [hbal2, h2a]
  have e1 := createTransaction_ok s tx1 hv1
  have e2 := createTransaction_ok _ tx2 hv2
  refine ⟨by rw [e1], by rw [e2], ?_⟩
  rw [e2]
  show (Blockchain.createTransaction s tx1).2.pendingTransactions ++ [tx2] =
    s.pendingTransactions ++ [tx1, tx2]
  rw [e1]
  simp

/-- C10 witness: double-spend admission on the concrete ledger where `alice`
holds 100. -/
theorem c10_pending_pool_ignored_check :
    (Blockchain.createTransaction c10State c10Tx1).1 = .ok c10Tx1.id ∧
    (Blockchain.createTransaction
      (Blockchain.createTransaction c10State c10Tx1).2 c10Tx2).1 =
      .ok c10Tx2.id ∧
    (Blockchain.createTransaction
      (Blockchain.createTransaction c10State c10Tx1).2 c10Tx2).2.pendingTransactions =
      c10State.pendingTransactions ++ [c10Tx1, c10Tx2] :=
  c10_pending_pool_ignored c10State c10Tx1 c10Tx2 "alice" 100 rfl rfl rfl rfl
    rfl rfl (by decide) (by decide)

end Golab
